import Mathlib

/-!
Shallow embedding of the arena allocator in `src/arena.rs` (the `Arena`
bump allocator over reserved virtual memory, and the `ArenaVec` growable
typed sequence built on it), together with theorems settling the
specification claims about them.

Modelling conventions:
* Machine addresses and sizes are natural numbers.  The arena code never
  relies on pointer wraparound (pointer overflow is undefined behaviour in
  the source language), so the arena state is modelled in exact natural
  arithmetic; the one function whose claim quantifies over the whole
  64-bit input range, `ceil_align`, additionally gets a bit-accurate
  64-bit model (`ceil_align_u64`) and a bridge lemma.
* The `Cell` fields of the Rust struct become plain fields with explicit
  state passing: `alloc_region` returns the updated arena together with
  the returned address.
* The OS calls `vm_commit` / `vm_uncommit` change page protections, not
  the addresses tracked by the struct fields, so `Arena` carries the
  address state alone; `ArenaVM` below additionally tracks which bytes
  are committed, and `writeOk` states when a store performed by the
  source succeeds rather than faulting on a `PROT_NONE` page.
* Fallible operations (Rust division, which panics on a zero divisor, and
  panicking indexing operators) return `Option`, with `none` marking the
  panic.
-/

/-- Number of OS pages committed at a time (`PAGES_PER_COMMIT` in the source). -/
def PAGES_PER_COMMIT : ℕ := 16

/-- `KIB` constant from the source. -/
def KIB : ℕ := 1024

/-- `MIB` constant from the source. -/
def MIB : ℕ := 1024 * KIB

/-- Ceil-aligns the value (`ceil_align` in the source), in exact arithmetic.
The source computes `value + ((-value) & (to - 1))` in machine integers;
for the power-of-two alignments the code uses, `(-value) & (to - 1)` is
`(-value) mod to`, which in natural arithmetic is `(to - value % to) % to`.
The bit-accurate 64-bit version is `ceil_align_u64` below; the lemma
`ceil_align_u64_eq_ceil_align` shows they agree whenever the rounded value
fits in 64 bits. -/
def ceil_align (value a : ℕ) : ℕ :=
  value + (a - value % a) % a

/-- Width of the 64-bit machine words (`usize` / `isize`) in the source. -/
def W64 : ℕ := 2 ^ 64

/-- Bit-accurate 64-bit model of `ceil_align` from the source:
`(value as isize + (-(value as isize) & (to as isize - 1))) as usize`,
with two's-complement negation, wrapping subtraction and addition, and
bitwise AND on the 64-bit patterns. -/
def ceil_align_u64 (value a : ℕ) : ℕ :=
  (value % W64 + Nat.land ((W64 - value % W64) % W64) ((a % W64 + W64 - 1) % W64)) % W64

/-- The `Arena` struct from the source.  `Cell` interior mutability is
modelled by explicit state passing. -/
structure Arena where
  base_addr : ℕ
  end_addr : ℕ
  uncommitted_addr : ℕ
  bump_addr : ℕ

/-- `Arena::new`: rounds the requested address-space size up to a whole
number of pages and reserves it.  `base` is the page-aligned address
returned by the OS reservation call; it is a parameter of the model. -/
def Arena.new (base pageSize addr_space_size : ℕ) : Arena :=
  let size := ceil_align addr_space_size pageSize
  { base_addr := base
    end_addr := base + size
    uncommitted_addr := base
    bump_addr := base }

/-- `Arena::alloc_granularity`: `os_page_size() * PAGES_PER_COMMIT`. -/
def alloc_granularity (pageSize : ℕ) : ℕ :=
  pageSize * PAGES_PER_COMMIT

/-- `Arena::alloc_region`: bump allocation.  Returns the updated arena and
the returned address.  The source's capacity check is commented out in
`src/arena.rs` (lines 253-255), so no bounds check appears here either;
the commit step mirrors the `next_bump_addr >= self.uncommitted_addr.get()`
branch. -/
def Arena.alloc_region (pageSize : ℕ) (a : Arena) (size align : ℕ) : Arena × ℕ :=
  let addr := ceil_align a.bump_addr align
  let next_bump_addr := addr + size
  let a2 :=
    if a.uncommitted_addr ≤ next_bump_addr then
      { a with uncommitted_addr := ceil_align next_bump_addr (alloc_granularity pageSize) }
    else a
  ({ a2 with bump_addr := next_bump_addr }, addr)

/-- `Arena::free_all`: rewinds the bump pointer to `base`.  The source
uncommits the page range `[base_addr, ceil_align(bump_addr, granularity))`
(see `Arena.free_all_uncommit_size`) but does not modify
`uncommitted_addr`, so the model leaves that field unchanged. -/
def Arena.free_all (a : Arena) : Arena :=
  { a with bump_addr := a.base_addr }

/-- Size of the region `free_all` passes to `vm_uncommit`:
`ceil_align_ptr(bump_addr, alloc_granularity) - base_addr`. -/
def Arena.free_all_uncommit_size (pageSize : ℕ) (a : Arena) : ℕ :=
  ceil_align a.bump_addr (alloc_granularity pageSize) - a.base_addr

/-- One observable operation on an arena, for stating invariants over
arbitrary operation sequences. -/
inductive ArenaOp where
  | alloc (size align : ℕ)
  | reset

/-- Apply one operation to an arena. -/
def Arena.step (pageSize : ℕ) (a : Arena) (op : ArenaOp) : Arena :=
  match op with
  | .alloc size align => (a.alloc_region pageSize size align).1
  | .reset => a.free_all

/-- Apply a sequence of operations to an arena. -/
def Arena.run (pageSize : ℕ) (a : Arena) (ops : List ArenaOp) : Arena :=
  ops.foldl (Arena.step pageSize) a

/-- Run a sequence of `(size, align)` allocation requests, collecting the
returned addresses in order. -/
def Arena.runAllocs (pageSize : ℕ) (a : Arena) : List (ℕ × ℕ) → List ℕ
  | [] => []
  | req :: rest =>
    let r := a.alloc_region pageSize req.1 req.2
    r.2 :: Arena.runAllocs pageSize r.1 rest

-- Basic facts about ceil_align (exact form).

theorem ceil_align_le (v a : ℕ) : v ≤ ceil_align v a :=
  Nat.le_add_right v _

theorem ceil_align_lt (v a : ℕ) (h : 0 < a) : ceil_align v a < v + a := by
  have h2 : (a - v % a) % a < a := Nat.mod_lt _ h
  unfold ceil_align
  omega

theorem ceil_align_mod (v a : ℕ) (h : 0 < a) : ceil_align v a % a = 0 := by
  unfold ceil_align
  by_cases h0 : v % a = 0
  · rw [h0, Nat.sub_zero, Nat.mod_self, Nat.add_zero, h0]
  · have hr : v % a < a := Nat.mod_lt _ h
    have h2 : (a - v % a) % a = a - v % a := Nat.mod_eq_of_lt (by omega)
    rw [h2, Nat.add_mod]
    rw [show v % a + (a - v % a) % a = a by omega, Nat.mod_self]

theorem ceil_align_dvd (v a : ℕ) (h : 0 < a) : a ∣ ceil_align v a :=
  Nat.dvd_of_mod_eq_zero (ceil_align_mod v a h)

theorem ceil_align_eq_self (v a : ℕ) (h : v % a = 0) : ceil_align v a = v := by
  unfold ceil_align
  rw [h, Nat.sub_zero, Nat.mod_self, Nat.add_zero]

theorem ceil_align_mul (v a : ℕ) (h : 0 < a) :
    ceil_align v a = a * ((v + a - 1) / a) := by
  obtain ⟨q, r, hr, hv⟩ : ∃ q r, r < a ∧ v = a * q + r :=
    ⟨v / a, v % a, Nat.mod_lt _ h, (Nat.div_add_mod v a).symm⟩
  subst hv
  have hmod : (a * q + r) % a = r := by
    rw [Nat.mul_add_mod, Nat.mod_eq_of_lt hr]
  by_cases h0 : r = 0
  · subst h0
    rw [ceil_align_eq_self _ _ hmod]
    have h3 : a * q + 0 + a - 1 = a * q + (a - 1) := by omega
    rw [h3, Nat.mul_add_div h, Nat.div_eq_of_lt (show a - 1 < a by omega)]
    simp
  · unfold ceil_align
    rw [hmod]
    have h2 : (a - r) % a = a - r := Nat.mod_eq_of_lt (by omega)
    rw [h2]
    have hl : a * (q + 1) = a * q + a := by ring
    have h3 : a * q + r + a - 1 = a * (q + 1) + (r - 1) := by omega
    rw [h3, Nat.mul_add_div h, Nat.div_eq_of_lt (show r - 1 < a by omega)]
    simp only [Nat.add_zero]
    omega

-- Projection lemmas for alloc_region / step / run.

theorem alloc_region_snd (pageSize : ℕ) (a : Arena) (size align : ℕ) :
    (a.alloc_region pageSize size align).2 = ceil_align a.bump_addr align := rfl

theorem alloc_region_fst_bump (pageSize : ℕ) (a : Arena) (size align : ℕ) :
    (a.alloc_region pageSize size align).1.bump_addr = ceil_align a.bump_addr align + size := rfl

theorem alloc_region_fst_base (pageSize : ℕ) (a : Arena) (size align : ℕ) :
    (a.alloc_region pageSize size align).1.base_addr = a.base_addr := by
  simp only [Arena.alloc_region]
  split <;> rfl

theorem alloc_region_fst_end (pageSize : ℕ) (a : Arena) (size align : ℕ) :
    (a.alloc_region pageSize size align).1.end_addr = a.end_addr := by
  simp only [Arena.alloc_region]
  split <;> rfl

theorem alloc_region_uncommitted_le (pageSize : ℕ) (a : Arena) (size align : ℕ) :
    a.uncommitted_addr ≤ (a.alloc_region pageSize size align).1.uncommitted_addr := by
  simp only [Arena.alloc_region]
  split
  · exact le_trans (by assumption) (ceil_align_le _ _)
  · exact le_refl _

theorem alloc_region_fst_uncommitted (pageSize : ℕ) (a : Arena) (size align : ℕ) :
    (a.alloc_region pageSize size align).1.uncommitted_addr =
      if a.uncommitted_addr ≤ ceil_align a.bump_addr align + size then
        ceil_align (ceil_align a.bump_addr align + size) (alloc_granularity pageSize)
      else a.uncommitted_addr := by
  simp only [Arena.alloc_region]
  split <;> rfl

theorem step_base (pageSize : ℕ) (a : Arena) (op : ArenaOp) :
    (a.step pageSize op).base_addr = a.base_addr := by
  cases op with
  | alloc size align => exact alloc_region_fst_base pageSize a size align
  | reset => rfl

theorem step_uncommitted_le (pageSize : ℕ) (a : Arena) (op : ArenaOp) :
    a.uncommitted_addr ≤ (a.step pageSize op).uncommitted_addr := by
  cases op with
  | alloc size align => exact alloc_region_uncommitted_le pageSize a size align
  | reset => exact le_refl _

theorem run_base (pageSize : ℕ) (ops : List ArenaOp) :
    ∀ a : Arena, (a.run pageSize ops).base_addr = a.base_addr := by
  induction ops with
  | nil => intro a; rfl
  | cons op rest ih =>
    intro a
    show ((a.step pageSize op).run pageSize rest).base_addr = a.base_addr
    rw [ih, step_base]

-- Bridge between the bit-accurate and the exact form of ceil_align.

theorem sub_mod_of_dvd (a x y : ℕ) (ha : 0 < a) (hx : a ∣ x) (hyx : y ≤ x) :
    (x - y) % a = (a - y % a) % a := by
  have hy : y % a < a := Nat.mod_lt _ ha
  have hx0 : x % a = 0 := Nat.mod_eq_zero_of_dvd hx
  have h1 : ((x - y) % a + y) % a = 0 := by
    rw [Nat.mod_add_mod, Nat.sub_add_cancel hyx, hx0]
  have h2 : ((a - y % a) % a + y) % a = 0 := by
    rw [Nat.mod_add_mod, ← Nat.add_mod_mod]
    rw [show a - y % a + y % a = a by omega, Nat.mod_self]
  have h4 : (x - y) % a + y ≡ (a - y % a) % a + y [MOD a] := h1.trans h2.symm
  have h3 := Nat.ModEq.add_right_cancel' y h4
  rwa [Nat.ModEq, Nat.mod_mod_of_dvd _ (dvd_refl a), Nat.mod_mod_of_dvd _ (dvd_refl a)] at h3

theorem ceil_align_u64_eq_ceil_align (v k : ℕ) (hv : v < W64) (hk : k < 64)
    (hnf : ceil_align v (2 ^ k) < W64) :
    ceil_align_u64 v (2 ^ k) = ceil_align v (2 ^ k) := by
  have hk2 : (2 : ℕ) ^ k < W64 := by
    unfold W64
    exact Nat.pow_lt_pow_right (by norm_num) hk
  have hk1 : 0 < (2 : ℕ) ^ k := Nat.two_pow_pos k
  have hdvd : (2 : ℕ) ^ k ∣ W64 := by
    unfold W64
    exact pow_dvd_pow 2 (le_of_lt hk)
  unfold ceil_align_u64
  rw [Nat.mod_eq_of_lt hv]
  have hmask : (2 ^ k % W64 + W64 - 1) % W64 = 2 ^ k - 1 := by
    rw [Nat.mod_eq_of_lt hk2, show 2 ^ k + W64 - 1 = W64 + (2 ^ k - 1) by omega,
      Nat.add_mod_left]
    exact Nat.mod_eq_of_lt (by omega)
  rw [hmask]
  have hland : Nat.land ((W64 - v) % W64) (2 ^ k - 1) = (W64 - v) % W64 % 2 ^ k :=
    Nat.and_pow_two_sub_one_eq_mod _ k
  rw [hland, Nat.mod_mod_of_dvd _ hdvd,
    sub_mod_of_dvd (2 ^ k) W64 v hk1 hdvd (le_of_lt hv)]
  show ceil_align v (2 ^ k) % W64 = ceil_align v (2 ^ k)
  exact Nat.mod_eq_of_lt hnf

/-- C4 (counterexample): at `v = 2^64 - 1`, `a = 8` the machine computation of
`ceil_align` wraps around to `0`, so `ceil_align(v, a) ≥ v` and
`ceil_align(v, a) = ceil(v/a)*a` fail on this input. -/
theorem c4_ceil_align_wraps_at_usize_max :
    ceil_align_u64 (2 ^ 64 - 1) 8 = 0 ∧
    ¬(2 ^ 64 - 1 ≤ ceil_align_u64 (2 ^ 64 - 1) 8) ∧
    ceil_align_u64 (2 ^ 64 - 1) 8 ≠ 8 * ((2 ^ 64 - 1 + 8 - 1) / 8) := by
  decide

/-- C4 (amended): for every `v` in the 64-bit range and every power-of-two
alignment `a = 2^k` such that the rounded value `ceil(v/a)*a` still fits in
64 bits, the machine computation agrees with the exact one and satisfies
`ceil_align(v, a) ≥ v`, `ceil_align(v, a) mod a = 0`,
`ceil_align(v, a) − a < v`, and `ceil_align(v, a) = ceil(v/a)*a`. -/
theorem c4_ceil_align_props (v k : ℕ) (hv : v < W64) (hk : k < 64)
    (hnf : ceil_align v (2 ^ k) < W64) :
    ceil_align_u64 v (2 ^ k) = ceil_align v (2 ^ k) ∧
    v ≤ ceil_align_u64 v (2 ^ k) ∧
    ceil_align_u64 v (2 ^ k) % 2 ^ k = 0 ∧
    (ceil_align_u64 v (2 ^ k) : ℤ) - 2 ^ k < v ∧
    ceil_align_u64 v (2 ^ k) = 2 ^ k * ((v + 2 ^ k - 1) / 2 ^ k) := by
  have hpos : 0 < (2 : ℕ) ^ k := Nat.two_pow_pos k
  have heq := ceil_align_u64_eq_ceil_align v k hv hk hnf
  rw [heq]
  refine ⟨rfl, ceil_align_le _ _, ceil_align_mod _ _ hpos, ?_, ceil_align_mul _ _ hpos⟩
  have hlt := ceil_align_lt v (2 ^ k) hpos
  have hcast : ((2 : ℕ) ^ k : ℤ) = (2 : ℤ) ^ k := by push_cast; ring
  omega

/-- Witness for C4 (amended) at `v = 5`, `a = 2^3`. -/
theorem c4_ceil_align_props_witness :
    (5 : ℕ) < W64 ∧ (3 : ℕ) < 64 ∧ ceil_align 5 (2 ^ 3) < W64 ∧
    (ceil_align_u64 5 (2 ^ 3) = ceil_align 5 (2 ^ 3) ∧
     5 ≤ ceil_align_u64 5 (2 ^ 3) ∧
     ceil_align_u64 5 (2 ^ 3) % 2 ^ 3 = 0 ∧
     (ceil_align_u64 5 (2 ^ 3) : ℤ) - 2 ^ 3 < 5 ∧
     ceil_align_u64 5 (2 ^ 3) = 2 ^ 3 * ((5 + 2 ^ 3 - 1) / 2 ^ 3)) :=
  ⟨by decide, by decide, by decide,
    c4_ceil_align_props 5 3 (by decide) (by decide) (by decide)⟩

/-- C1 (code bug): the capacity check in `alloc_region` is commented out in
the source, so an allocation of 8192 bytes from an arena whose reserved
capacity is one 4096-byte page does not fail: it returns the base address
and silently advances the bump pointer to 8192, past `end_addr = 4096`. -/
theorem c1_capacity_overrun_not_fatal :
    ((Arena.new 0 4096 4096).alloc_region 4096 8192 1).2 = 0 ∧
    ((Arena.new 0 4096 4096).alloc_region 4096 8192 1).1.bump_addr = 8192 ∧
    ((Arena.new 0 4096 4096).alloc_region 4096 8192 1).1.end_addr = 4096 ∧
    ¬(((Arena.new 0 4096 4096).alloc_region 4096 8192 1).1.bump_addr ≤
      ((Arena.new 0 4096 4096).alloc_region 4096 8192 1).1.end_addr) := by
  decide

/-- C2 (code bug): `free_all` rewinds the bump pointer but leaves
`uncommitted_addr` unchanged.  After a 1-byte allocation from a fresh
one-page arena (which commits up to 65536) and a `free_all`, the bump
pointer is back at `base = 0` but the committed boundary is still 65536,
not `base` as the specification requires. -/
theorem c2_free_all_keeps_committed_boundary :
    (((Arena.new 0 4096 4096).alloc_region 4096 1 1).1.free_all).bump_addr = 0 ∧
    (((Arena.new 0 4096 4096).alloc_region 4096 1 1).1.free_all).base_addr = 0 ∧
    (((Arena.new 0 4096 4096).alloc_region 4096 1 1).1.free_all).uncommitted_addr = 65536 := by
  decide

/-- C3 (code bug): the ordering `base ≤ bump ≤ committed_boundary ≤ end` is
not preserved by allocation: a single 1-byte allocation from a fresh
one-page arena rounds the commit boundary up to the 65536-byte commit
granularity, past `end_addr = 4096` (and, with the capacity check commented
out, the bump pointer itself can pass `end_addr`, see C1). -/
theorem c3_ordering_invariant_violated :
    ((Arena.new 0 4096 4096).alloc_region 4096 1 1).1.uncommitted_addr = 65536 ∧
    ((Arena.new 0 4096 4096).alloc_region 4096 1 1).1.end_addr = 4096 ∧
    ¬(((Arena.new 0 4096 4096).alloc_region 4096 1 1).1.uncommitted_addr ≤
      ((Arena.new 0 4096 4096).alloc_region 4096 1 1).1.end_addr) := by
  decide

/-- C6 (counterexample): the committed boundary is not a multiple of the
commit granularity in every reachable state.  A fresh arena whose OS
reservation returned the page-aligned address 4096 has
`uncommitted_addr = 4096`, which is not a multiple of the commit
granularity `4096 * 16 = 65536`. -/
theorem c6_initial_boundary_not_granularity_aligned :
    (Arena.new 4096 4096 65536).uncommitted_addr = 4096 ∧
    (4096 : ℕ) % 4096 = 0 ∧
    ¬(alloc_granularity 4096 ∣ (Arena.new 4096 4096 65536).uncommitted_addr) := by
  decide

/-- Step preserves the property that the committed boundary is the base
address or a multiple of the commit granularity. -/
theorem step_boundary_base_or_dvd (pageSize : ℕ) (hp : 0 < pageSize) (b : ℕ)
    (a : Arena) (op : ArenaOp)
    (h : a.uncommitted_addr = b ∨ alloc_granularity pageSize ∣ a.uncommitted_addr) :
    (a.step pageSize op).uncommitted_addr = b ∨
      alloc_granularity pageSize ∣ (a.step pageSize op).uncommitted_addr := by
  have hg : 0 < alloc_granularity pageSize := by
    unfold alloc_granularity PAGES_PER_COMMIT
    positivity
  cases op with
  | alloc size align =>
    show (a.alloc_region pageSize size align).1.uncommitted_addr = b ∨
      alloc_granularity pageSize ∣ (a.alloc_region pageSize size align).1.uncommitted_addr
    rw [alloc_region_fst_uncommitted]
    split
    · exact Or.inr (ceil_align_dvd _ _ hg)
    · exact h
  | reset => exact h

/-- C6 (amended): along every operation sequence from a fresh arena, the
committed boundary is monotonically non-decreasing across every operation
(including resets, which leave it unchanged), and in every reachable state
it either still equals `base` (no page has been committed yet) or is a
multiple of the commit granularity `pageSize * PAGES_PER_COMMIT`. -/
theorem c6_boundary_monotone_and_aligned (pageSize base cap : ℕ) (hp : 0 < pageSize)
    (ops : List ArenaOp) :
    (((Arena.new base pageSize cap).run pageSize ops).uncommitted_addr = base ∨
      alloc_granularity pageSize ∣
        ((Arena.new base pageSize cap).run pageSize ops).uncommitted_addr) ∧
    ∀ op : ArenaOp,
      ((Arena.new base pageSize cap).run pageSize ops).uncommitted_addr ≤
        (((Arena.new base pageSize cap).run pageSize ops).step pageSize op).uncommitted_addr := by
  constructor
  · have hgen : ∀ (l : List ArenaOp) (a : Arena),
        (a.uncommitted_addr = base ∨ alloc_granularity pageSize ∣ a.uncommitted_addr) →
        ((a.run pageSize l).uncommitted_addr = base ∨
          alloc_granularity pageSize ∣ (a.run pageSize l).uncommitted_addr) := by
      intro l
      induction l with
      | nil => intro a h; exact h
      | cons op rest ih =>
        intro a h
        exact ih (a.step pageSize op) (step_boundary_base_or_dvd pageSize hp base a op h)
    exact hgen ops (Arena.new base pageSize cap) (Or.inl rfl)
  · intro op
    exact step_uncommitted_le pageSize _ op

/-- Witness for C6 (amended) at page size 4096, base 0, one allocation. -/
theorem c6_boundary_monotone_and_aligned_witness :
    0 < 4096 ∧
    ((((Arena.new 0 4096 4096).run 4096 [ArenaOp.alloc 1 1]).uncommitted_addr = 0 ∨
      alloc_granularity 4096 ∣
        ((Arena.new 0 4096 4096).run 4096 [ArenaOp.alloc 1 1]).uncommitted_addr) ∧
    ∀ op : ArenaOp,
      ((Arena.new 0 4096 4096).run 4096 [ArenaOp.alloc 1 1]).uncommitted_addr ≤
        (((Arena.new 0 4096 4096).run 4096 [ArenaOp.alloc 1 1]).step 4096 op).uncommitted_addr) :=
  ⟨by decide, c6_boundary_monotone_and_aligned 4096 0 4096 (by decide) [ArenaOp.alloc 1 1]⟩

-- Facts about sequences of allocations (for C5).

theorem runAllocs_length (pageSize : ℕ) :
    ∀ (reqs : List (ℕ × ℕ)) (a : Arena),
      (a.runAllocs pageSize reqs).length = reqs.length := by
  intro reqs
  induction reqs with
  | nil => intro a; rfl
  | cons req rest ih =>
    intro a
    simp only [Arena.runAllocs, List.length_cons, ih]

theorem runAllocs_bump_le (pageSize : ℕ) :
    ∀ (reqs : List (ℕ × ℕ)) (a : Arena) (x : ℕ),
      x ∈ a.runAllocs pageSize reqs → a.bump_addr ≤ x := by
  intro reqs
  induction reqs with
  | nil => intro a x hx; simp [Arena.runAllocs] at hx
  | cons req rest ih =>
    intro a x hx
    simp only [Arena.runAllocs, List.mem_cons] at hx
    rcases hx with h | h
    · rw [h, alloc_region_snd]
      exact ceil_align_le _ _
    · have h2 := ih ((a.alloc_region pageSize req.1 req.2).1) x h
      rw [alloc_region_fst_bump] at h2
      exact le_trans (le_trans (ceil_align_le _ _) (Nat.le_add_right _ _)) h2

theorem runAllocs_ordered (pageSize : ℕ) :
    ∀ (reqs : List (ℕ × ℕ)) (a : Arena) (i j : ℕ),
      i < j → j < reqs.length →
      (a.runAllocs pageSize reqs).getD i 0 + (reqs.getD i (0, 1)).1 ≤
        (a.runAllocs pageSize reqs).getD j 0 := by
  intro reqs
  induction reqs with
  | nil => intro a i j hij hj; simp at hj
  | cons req rest ih =>
    intro a i j hij hj
    match i, j with
    | 0, j' + 1 =>
      have hj' : j' < rest.length := by
        simpa using hj
      simp only [Arena.runAllocs]
      rw [List.getD_cons_zero, List.getD_cons_succ, List.getD_cons_zero]
      have hlen : j' < ((a.alloc_region pageSize req.1 req.2).1.runAllocs pageSize rest).length := by
        rw [runAllocs_length]
        exact hj'
      have hmem := List.getElem_mem hlen
      rw [← List.getD_eq_getElem _ 0 hlen] at hmem
      have hle := runAllocs_bump_le pageSize rest _ _ hmem
      rw [alloc_region_fst_bump] at hle
      rw [alloc_region_snd]
      exact hle
    | i' + 1, j' + 1 =>
      simp only [Arena.runAllocs]
      rw [List.getD_cons_succ, List.getD_cons_succ, List.getD_cons_succ]
      exact ih _ i' j' (by omega) (by simpa using hj)

theorem runAllocs_aligned (pageSize : ℕ) :
    ∀ (reqs : List (ℕ × ℕ)) (a : Arena) (i : ℕ),
      i < reqs.length → 0 < (reqs.getD i (0, 1)).2 →
      (a.runAllocs pageSize reqs).getD i 0 % (reqs.getD i (0, 1)).2 = 0 := by
  intro reqs
  induction reqs with
  | nil => intro a i hi; simp at hi
  | cons req rest ih =>
    intro a i hi hpos
    match i with
    | 0 =>
      rw [List.getD_cons_zero] at hpos ⊢
      simp only [Arena.runAllocs]
      rw [List.getD_cons_zero, alloc_region_snd]
      exact ceil_align_mod _ _ hpos
    | i' + 1 =>
      rw [List.getD_cons_succ] at hpos ⊢
      simp only [Arena.runAllocs]
      rw [List.getD_cons_succ]
      exact ih _ i' (by simpa using hi) hpos

/-- C5: for a sequence of allocation requests with power-of-two alignments
whose total aligned size is within capacity, the returned byte ranges are
pairwise disjoint and every returned address is a multiple of its requested
alignment; in particular three consecutive 8-byte-aligned 8-byte
allocations from a fresh one-page arena (page size 4096) return the
offsets 0, 8, 16 from base. -/
theorem c5_allocations_disjoint_and_aligned (pageSize base cap : ℕ)
    (reqs : List (ℕ × ℕ))
    (hpow : ∀ q ∈ reqs, ∃ k : ℕ, q.2 = 2 ^ k)
    (hcap : ((reqs.map fun q => ceil_align q.1 q.2).sum) ≤ cap) :
    (∀ i j, i < reqs.length → j < reqs.length → i ≠ j → ∀ x : ℕ,
      ¬(((Arena.new base pageSize cap).runAllocs pageSize reqs).getD i 0 ≤ x ∧
        x < ((Arena.new base pageSize cap).runAllocs pageSize reqs).getD i 0 +
          (reqs.getD i (0, 1)).1 ∧
        ((Arena.new base pageSize cap).runAllocs pageSize reqs).getD j 0 ≤ x ∧
        x < ((Arena.new base pageSize cap).runAllocs pageSize reqs).getD j 0 +
          (reqs.getD j (0, 1)).1)) ∧
    (∀ i, i < reqs.length →
      ((Arena.new base pageSize cap).runAllocs pageSize reqs).getD i 0 %
        (reqs.getD i (0, 1)).2 = 0) ∧
    (8 ∣ base →
      (Arena.new base 4096 4096).runAllocs 4096 [(8, 8), (8, 8), (8, 8)] =
        [base, base + 8, base + 16]) := by
  refine ⟨?_, ?_, ?_⟩
  · intro i j hi hj hne x hx
    rcases Nat.lt_trichotomy i j with hij | hij | hij
    · have := runAllocs_ordered pageSize reqs (Arena.new base pageSize cap) i j hij hj
      omega
    · exact hne hij
    · have := runAllocs_ordered pageSize reqs (Arena.new base pageSize cap) j i hij hi
      omega
  · intro i hi
    have hmem : reqs.getD i (0, 1) ∈ reqs := by
      rw [List.getD_eq_getElem _ _ hi]
      exact List.getElem_mem hi
    obtain ⟨k, hk⟩ := hpow _ hmem
    exact runAllocs_aligned pageSize reqs _ i hi (by rw [hk]; exact Nat.two_pow_pos k)
  · intro h8
    obtain ⟨t, rfl⟩ := h8
    simp only [Arena.runAllocs, Arena.alloc_region, Arena.new, ceil_align,
      List.cons.injEq, and_true]
    omega

/-- Witness for C5 at one 8-byte, 8-aligned request from a fresh arena at
base 0, page size 4096, capacity 4096. -/
theorem c5_allocations_disjoint_and_aligned_witness :
    (∀ q ∈ ([(8, 8)] : List (ℕ × ℕ)), ∃ k : ℕ, q.2 = 2 ^ k) ∧
    ((([(8, 8)] : List (ℕ × ℕ)).map fun q => ceil_align q.1 q.2).sum) ≤ 4096 ∧
    ((∀ i j, i < ([(8, 8)] : List (ℕ × ℕ)).length →
        j < ([(8, 8)] : List (ℕ × ℕ)).length → i ≠ j → ∀ x : ℕ,
      ¬(((Arena.new 0 4096 4096).runAllocs 4096 [(8, 8)]).getD i 0 ≤ x ∧
        x < ((Arena.new 0 4096 4096).runAllocs 4096 [(8, 8)]).getD i 0 +
          (([(8, 8)] : List (ℕ × ℕ)).getD i (0, 1)).1 ∧
        ((Arena.new 0 4096 4096).runAllocs 4096 [(8, 8)]).getD j 0 ≤ x ∧
        x < ((Arena.new 0 4096 4096).runAllocs 4096 [(8, 8)]).getD j 0 +
          (([(8, 8)] : List (ℕ × ℕ)).getD j (0, 1)).1)) ∧
    (∀ i, i < ([(8, 8)] : List (ℕ × ℕ)).length →
      ((Arena.new 0 4096 4096).runAllocs 4096 [(8, 8)]).getD i 0 %
        (([(8, 8)] : List (ℕ × ℕ)).getD i (0, 1)).2 = 0) ∧
    (8 ∣ (0 : ℕ) →
      (Arena.new 0 4096 4096).runAllocs 4096 [(8, 8), (8, 8), (8, 8)] =
        [0, 0 + 8, 0 + 16])) :=
  ⟨by
    intro q hq
    rw [List.mem_singleton] at hq
    subst hq
    exact ⟨3, rfl⟩,
   by decide,
   c5_allocations_disjoint_and_aligned 4096 0 4096 [(8, 8)]
     (by
       intro q hq
       rw [List.mem_singleton] at hq
       subst hq
       exact ⟨3, rfl⟩)
     (by decide)⟩

-- The ArenaVec growable typed sequence.

/-- The `ArenaVec<T>` struct from the source: an owned arena, plus a model
of the memory it writes into.  `mem p` is the value of type `τ` whose
storage starts at byte address `p`; before anything is written there it
holds arbitrary junk (uninitialized memory). -/
structure ArenaVec (τ : Type) where
  arena : Arena
  mem : ℕ → τ

/-- `ArenaVec::new`: creates the owned arena.  `junk` is the arbitrary
initial content of uninitialized memory. -/
def ArenaVec.new {τ : Type} (base pageSize addr_space_size : ℕ) (junk : ℕ → τ) :
    ArenaVec τ :=
  { arena := Arena.new base pageSize addr_space_size, mem := junk }

/-- `ArenaVec::add`: `self.arena.alloc(value)`, i.e. one `alloc_region` of
`size_of::<T>()` bytes at `align_of::<T>()`, then a write of `value` at the
returned address.  `elemSize` and `elemAlign` are the size and alignment of
the element type.  The write is modelled as always storing, which is exact
exactly when the written bytes are committed - the case for every append
to a fresh vector, where the commit branch runs first; `ArenaVM` and
`writeOk` below track the page protections and show the first append
after a `clear` faulting on decommitted memory instead. -/
def ArenaVec.add {τ : Type} (pageSize elemSize elemAlign : ℕ) (v : ArenaVec τ)
    (value : τ) : ArenaVec τ :=
  let r := v.arena.alloc_region pageSize elemSize elemAlign
  { arena := r.1, mem := fun p => if p = r.2 then value else v.mem p }

/-- Division as the source language computes it on `usize`: panics (modelled
as `none`) when the divisor is zero. -/
def rustDiv (a b : ℕ) : Option ℕ :=
  if b = 0 then none else some (a / b)

/-- `ArenaVec::len`: `(bump_addr - base_addr) / size_of::<T>()`; the
division panics when the element size is zero. -/
def ArenaVec.len {τ : Type} (v : ArenaVec τ) (elemSize : ℕ) : Option ℕ :=
  rustDiv (v.arena.bump_addr - v.arena.base_addr) elemSize

/-- `ArenaVec::get`: bounds-checked read.  Outer `none` is a panic
propagated from `len`; `some none` is the absent (out-of-range) result;
`some (some x)` is a successful read of the element starting at
`base_addr + idx * size_of::<T>()`. -/
def ArenaVec.get {τ : Type} (v : ArenaVec τ) (elemSize idx : ℕ) :
    Option (Option τ) :=
  match v.len elemSize with
  | none => none
  | some l =>
    if l ≤ idx then some none
    else some (some (v.mem (v.arena.base_addr + idx * elemSize)))

/-- `ArenaVec::get_mut`: same bounds check and address computation as
`get`. -/
def ArenaVec.get_mut {τ : Type} (v : ArenaVec τ) (elemSize idx : ℕ) :
    Option (Option τ) :=
  match v.len elemSize with
  | some l =>
    if l ≤ idx then some none
    else some (some (v.mem (v.arena.base_addr + idx * elemSize)))
  | none => none

/-- The `Index` impl: `self.get(index)`, panicking (`none`) when the safe
accessor reports absent (and propagating the `len` panic). -/
def ArenaVec.index {τ : Type} (v : ArenaVec τ) (elemSize idx : ℕ) : Option τ :=
  match v.get elemSize idx with
  | some (some x) => some x
  | _ => none

/-- The `IndexMut` impl: re-checks `index >= len` itself and panics
(`none`) out of range, else returns the element at
`base_addr + index * size_of::<T>()`. -/
def ArenaVec.index_mut {τ : Type} (v : ArenaVec τ) (elemSize idx : ℕ) : Option τ :=
  match v.len elemSize with
  | none => none
  | some l =>
    if l ≤ idx then none
    else some (v.mem (v.arena.base_addr + idx * elemSize))

/-- `ArenaVec::as_slice`: the `len()` elements starting at `base_addr`
(propagating the `len` panic). -/
def ArenaVec.as_slice {τ : Type} (v : ArenaVec τ) (elemSize : ℕ) :
    Option (List τ) :=
  (v.len elemSize).map fun l =>
    (List.range l).map fun i => v.mem (v.arena.base_addr + i * elemSize)

/-- `ArenaVec::is_empty`: `self.len() == 0` (propagating the `len`
panic). -/
def ArenaVec.is_empty {τ : Type} (v : ArenaVec τ) (elemSize : ℕ) : Option Bool :=
  (v.len elemSize).map fun l => l == 0

/-- `ArenaVec::clear`: `self.arena.free_all()`. -/
def ArenaVec.clear {τ : Type} (v : ArenaVec τ) : ArenaVec τ :=
  { arena := v.arena.free_all, mem := v.mem }

/-- Append a list of values in order (`add` repeatedly). -/
def ArenaVec.addAll {τ : Type} (pageSize elemSize elemAlign : ℕ) (v : ArenaVec τ)
    (xs : List τ) : ArenaVec τ :=
  xs.foldl (fun acc x => acc.add pageSize elemSize elemAlign x) v

-- Behaviour of repeated appends (for C7 and C9).

theorem add_arena_eqs {τ : Type} (pageSize elemSize elemAlign : ℕ)
    (hdvd : elemAlign ∣ elemSize) (v : ArenaVec τ) (x : τ) (m : ℕ)
    (hb : elemAlign ∣ v.arena.base_addr)
    (hbump : v.arena.bump_addr = v.arena.base_addr + m * elemSize) :
    (v.add pageSize elemSize elemAlign x).arena.base_addr = v.arena.base_addr ∧
    (v.add pageSize elemSize elemAlign x).arena.bump_addr =
      v.arena.base_addr + (m + 1) * elemSize ∧
    ∀ p, (v.add pageSize elemSize elemAlign x).mem p =
      if p = v.arena.base_addr + m * elemSize then x else v.mem p := by
  have key : ceil_align v.arena.bump_addr elemAlign = v.arena.bump_addr := by
    apply ceil_align_eq_self
    obtain ⟨c, hc⟩ := hb
    obtain ⟨d, hd⟩ := hdvd
    rw [hbump, hc, hd,
      show elemAlign * c + m * (elemAlign * d) = elemAlign * (c + m * d) by ring,
      Nat.mul_mod_right]
  refine ⟨alloc_region_fst_base _ _ _ _, ?_, ?_⟩
  · show (v.arena.alloc_region pageSize elemSize elemAlign).1.bump_addr = _
    rw [alloc_region_fst_bump, key, hbump]
    ring
  · intro p
    show (if p = (v.arena.alloc_region pageSize elemSize elemAlign).2 then x else v.mem p) = _
    rw [alloc_region_snd, key, hbump]

theorem addAll_arena {τ : Type} (pageSize elemSize elemAlign : ℕ)
    (hdvd : elemAlign ∣ elemSize) :
    ∀ (xs : List τ) (v : ArenaVec τ) (m : ℕ),
      elemAlign ∣ v.arena.base_addr →
      v.arena.bump_addr = v.arena.base_addr + m * elemSize →
      (v.addAll pageSize elemSize elemAlign xs).arena.base_addr = v.arena.base_addr ∧
      (v.addAll pageSize elemSize elemAlign xs).arena.bump_addr =
        v.arena.base_addr + (m + xs.length) * elemSize := by
  intro xs
  induction xs with
  | nil =>
    intro v m hb hbump
    exact ⟨rfl, by simpa using hbump⟩
  | cons x rest ih =>
    intro v m hb hbump
    obtain ⟨hab, habump, -⟩ := add_arena_eqs pageSize elemSize elemAlign hdvd v x m hb hbump
    have hrec := ih (v.add pageSize elemSize elemAlign x) (m + 1)
      (by rw [hab]; exact hb) (by rw [habump, hab])
    have hcons : v.addAll pageSize elemSize elemAlign (x :: rest) =
        (v.add pageSize elemSize elemAlign x).addAll pageSize elemSize elemAlign rest := rfl
    rw [hcons, hrec.1, hrec.2, hab]
    refine ⟨rfl, ?_⟩
    rw [List.length_cons]
    ring_nf

theorem addAll_mem_frame {τ : Type} (pageSize elemSize elemAlign : ℕ) :
    ∀ (xs : List τ) (v : ArenaVec τ) (q : ℕ),
      q < v.arena.bump_addr →
      (v.addAll pageSize elemSize elemAlign xs).mem q = v.mem q := by
  intro xs
  induction xs with
  | nil => intro v q h; rfl
  | cons x rest ih =>
    intro v q h
    have hbump : (v.add pageSize elemSize elemAlign x).arena.bump_addr =
        ceil_align v.arena.bump_addr elemAlign + elemSize :=
      alloc_region_fst_bump _ _ _ _
    have h2 : q < (v.add pageSize elemSize elemAlign x).arena.bump_addr := by
      rw [hbump]
      exact lt_of_lt_of_le h (le_trans (ceil_align_le _ _) (Nat.le_add_right _ _))
    have hcons : v.addAll pageSize elemSize elemAlign (x :: rest) =
        (v.add pageSize elemSize elemAlign x).addAll pageSize elemSize elemAlign rest := rfl
    rw [hcons, ih _ _ h2]
    show (if q = (v.arena.alloc_region pageSize elemSize elemAlign).2 then x else v.mem q) = v.mem q
    rw [alloc_region_snd, if_neg]
    intro hq
    have := ceil_align_le v.arena.bump_addr elemAlign
    omega

theorem addAll_mem_get {τ : Type} (pageSize elemSize elemAlign : ℕ)
    (hS : 0 < elemSize) (hdvd : elemAlign ∣ elemSize) :
    ∀ (xs : List τ) (v : ArenaVec τ) (m i : ℕ) (hi : i < xs.length),
      elemAlign ∣ v.arena.base_addr →
      v.arena.bump_addr = v.arena.base_addr + m * elemSize →
      (v.addAll pageSize elemSize elemAlign xs).mem
        (v.arena.base_addr + (m + i) * elemSize) = xs[i] := by
  intro xs
  induction xs with
  | nil => intro v m i hi; simp at hi
  | cons x rest ih =>
    intro v m i hi hb hbump
    obtain ⟨hab, habump, hamem⟩ :=
      add_arena_eqs pageSize elemSize elemAlign hdvd v x m hb hbump
    have hcons : v.addAll pageSize elemSize elemAlign (x :: rest) =
        (v.add pageSize elemSize elemAlign x).addAll pageSize elemSize elemAlign rest := rfl
    match i with
    | 0 =>
      have hmul : (m + 1) * elemSize = m * elemSize + elemSize := by ring
      have hlt : v.arena.base_addr + (m + 0) * elemSize <
          (v.add pageSize elemSize elemAlign x).arena.bump_addr := by
        rw [habump, hmul]
        have hz : (m + 0) * elemSize = m * elemSize := by ring
        omega
      rw [hcons, addAll_mem_frame pageSize elemSize elemAlign rest _ _ hlt, hamem,
        if_pos (by ring_nf)]
      simp
    | i' + 1 =>
      have hrec := ih (v.add pageSize elemSize elemAlign x) (m + 1) i'
        (by simpa using hi) (by rw [hab]; exact hb) (by rw [habump, hab])
      rw [hcons]
      rw [hab] at hrec
      rw [show m + (i' + 1) = m + 1 + i' by omega]
      rw [hrec]
      simp

theorem addAll_len {τ : Type} (pageSize elemSize elemAlign : ℕ)
    (hS : 0 < elemSize) (hdvd : elemAlign ∣ elemSize) (v : ArenaVec τ)
    (xs : List τ) (hb : elemAlign ∣ v.arena.base_addr)
    (hbump : v.arena.bump_addr = v.arena.base_addr) :
    (v.addAll pageSize elemSize elemAlign xs).len elemSize = some xs.length := by
  obtain ⟨hbase, hbump2⟩ := addAll_arena pageSize elemSize elemAlign hdvd xs v 0 hb
    (by rw [hbump]; ring)
  unfold ArenaVec.len rustDiv
  rw [hbase, hbump2, if_neg (Nat.pos_iff_ne_zero.mp hS),
    show (0 + xs.length) * elemSize = xs.length * elemSize by ring,
    Nat.add_sub_cancel_left, Nat.mul_div_cancel _ hS]

theorem addAll_as_slice {τ : Type} (pageSize elemSize elemAlign : ℕ)
    (hS : 0 < elemSize) (hdvd : elemAlign ∣ elemSize) (v : ArenaVec τ)
    (xs : List τ) (hb : elemAlign ∣ v.arena.base_addr)
    (hbump : v.arena.bump_addr = v.arena.base_addr) :
    (v.addAll pageSize elemSize elemAlign xs).as_slice elemSize = some xs := by
  obtain ⟨hbase, -⟩ := addAll_arena pageSize elemSize elemAlign hdvd xs v 0 hb
    (by rw [hbump]; ring)
  unfold ArenaVec.as_slice
  rw [addAll_len pageSize elemSize elemAlign hS hdvd v xs hb hbump]
  show some _ = some xs
  congr 1
  apply List.ext_getElem
  · simp
  · intro i h1 h2
    rw [List.getElem_map, List.getElem_range, hbase]
    have := addAll_mem_get pageSize elemSize elemAlign hS hdvd xs v 0 i h2 hb
      (by rw [hbump]; ring)
    rw [show (0 + i) * elemSize = i * elemSize by ring] at this
    exact this

/-- C7: appending `n` values to a fresh or freshly cleared `ArenaVec`
(bump pointer at base, with the element type's positive size a multiple of
its positive alignment, the base address aligned as the OS reservation
guarantees, and the appended bytes within capacity) makes `len` return `n`
and `as_slice` return exactly the appended values in order. -/
theorem c7_addAll_len_as_slice {τ : Type} (pageSize elemSize elemAlign : ℕ)
    (v : ArenaVec τ) (xs : List τ)
    (hS : 0 < elemSize) (hA : 0 < elemAlign) (hdvd : elemAlign ∣ elemSize)
    (hb : elemAlign ∣ v.arena.base_addr)
    (hbump : v.arena.bump_addr = v.arena.base_addr)
    (hcap : xs.length * elemSize ≤ v.arena.end_addr - v.arena.base_addr) :
    (v.addAll pageSize elemSize elemAlign xs).len elemSize = some xs.length ∧
    (v.addAll pageSize elemSize elemAlign xs).as_slice elemSize = some xs :=
  ⟨addAll_len pageSize elemSize elemAlign hS hdvd v xs hb hbump,
   addAll_as_slice pageSize elemSize elemAlign hS hdvd v xs hb hbump⟩

/-- Witness for C7: three 4-byte elements appended to a fresh vector. -/
theorem c7_addAll_len_as_slice_witness :
    0 < 4 ∧ 0 < 4 ∧ (4 : ℕ) ∣ 4 ∧
    (4 : ℕ) ∣ (ArenaVec.new 0 4096 4096 (fun _ => (0 : ℕ))).arena.base_addr ∧
    (ArenaVec.new 0 4096 4096 (fun _ => (0 : ℕ))).arena.bump_addr =
      (ArenaVec.new 0 4096 4096 (fun _ => (0 : ℕ))).arena.base_addr ∧
    ([10, 20, 30] : List ℕ).length * 4 ≤
      (ArenaVec.new 0 4096 4096 (fun _ => (0 : ℕ))).arena.end_addr -
        (ArenaVec.new 0 4096 4096 (fun _ => (0 : ℕ))).arena.base_addr ∧
    (((ArenaVec.new 0 4096 4096 (fun _ => (0 : ℕ))).addAll 4096 4 4
        [10, 20, 30]).len 4 = some ([10, 20, 30] : List ℕ).length ∧
     ((ArenaVec.new 0 4096 4096 (fun _ => (0 : ℕ))).addAll 4096 4 4
        [10, 20, 30]).as_slice 4 = some [10, 20, 30]) :=
  ⟨by decide, by decide, by decide, by decide, by decide, by decide,
   c7_addAll_len_as_slice 4096 4 4 (ArenaVec.new 0 4096 4096 (fun _ => (0 : ℕ)))
     [10, 20, 30] (by decide) (by decide) (by decide) (by decide) (by decide) (by decide)⟩

/-- C8: for a positive element size, `len` returns some length `L`;
`get` and `get_mut` report absent exactly when the index is at least `L`
and return the element stored at `base_addr + idx * elemSize` otherwise;
and both indexing operators panic (return `none`) for out-of-range
indices instead of returning a value. -/
theorem c8_get_bounds_checked {τ : Type} (v : ArenaVec τ) (elemSize idx : ℕ)
    (hS : 0 < elemSize) :
    ∃ L, v.len elemSize = some L ∧
      (v.get elemSize idx = some none ↔ L ≤ idx) ∧
      (v.get_mut elemSize idx = some none ↔ L ≤ idx) ∧
      (idx < L →
        v.get elemSize idx =
          some (some (v.mem (v.arena.base_addr + idx * elemSize))) ∧
        v.get_mut elemSize idx =
          some (some (v.mem (v.arena.base_addr + idx * elemSize)))) ∧
      (L ≤ idx → v.index elemSize idx = none) ∧
      (L ≤ idx → v.index_mut elemSize idx = none) := by
  have hlen : v.len elemSize =
      some ((v.arena.bump_addr - v.arena.base_addr) / elemSize) := by
    unfold ArenaVec.len rustDiv
    rw [if_neg (by omega)]
  refine ⟨(v.arena.bump_addr - v.arena.base_addr) / elemSize, hlen, ?_, ?_, ?_, ?_, ?_⟩
  · unfold ArenaVec.get
    rw [hlen]
    by_cases h : (v.arena.bump_addr - v.arena.base_addr) / elemSize ≤ idx <;> simp [h]
  · unfold ArenaVec.get_mut
    rw [hlen]
    by_cases h : (v.arena.bump_addr - v.arena.base_addr) / elemSize ≤ idx <;> simp [h]
  · intro h
    have h2 : ¬((v.arena.bump_addr - v.arena.base_addr) / elemSize ≤ idx) := by omega
    simp [ArenaVec.get, ArenaVec.get_mut, hlen, h2]
  · intro h
    simp [ArenaVec.index, ArenaVec.get, hlen, h]
  · intro h
    simp [ArenaVec.index_mut, hlen, h]

/-- Witness for C8 on a vector of two 4-byte elements (bump 8 bytes past
base), probed at index 1 (in range) via the theorem instance. -/
theorem c8_get_bounds_checked_witness :
    0 < 4 ∧
    (∃ L, (ArenaVec.mk (Arena.mk 0 4096 0 8) (fun _ => (7 : ℕ))).len 4 = some L ∧
      ((ArenaVec.mk (Arena.mk 0 4096 0 8) (fun _ => (7 : ℕ))).get 4 1 = some none ↔ L ≤ 1) ∧
      ((ArenaVec.mk (Arena.mk 0 4096 0 8) (fun _ => (7 : ℕ))).get_mut 4 1 = some none ↔ L ≤ 1) ∧
      (1 < L →
        (ArenaVec.mk (Arena.mk 0 4096 0 8) (fun _ => (7 : ℕ))).get 4 1 =
          some (some ((ArenaVec.mk (Arena.mk 0 4096 0 8) (fun _ => (7 : ℕ))).mem
            ((ArenaVec.mk (Arena.mk 0 4096 0 8) (fun _ => (7 : ℕ))).arena.base_addr + 1 * 4))) ∧
        (ArenaVec.mk (Arena.mk 0 4096 0 8) (fun _ => (7 : ℕ))).get_mut 4 1 =
          some (some ((ArenaVec.mk (Arena.mk 0 4096 0 8) (fun _ => (7 : ℕ))).mem
            ((ArenaVec.mk (Arena.mk 0 4096 0 8) (fun _ => (7 : ℕ))).arena.base_addr + 1 * 4)))) ∧
      (L ≤ 1 → (ArenaVec.mk (Arena.mk 0 4096 0 8) (fun _ => (7 : ℕ))).index 4 1 = none) ∧
      (L ≤ 1 → (ArenaVec.mk (Arena.mk 0 4096 0 8) (fun _ => (7 : ℕ))).index_mut 4 1 = none)) :=
  ⟨by decide,
   c8_get_bounds_checked (ArenaVec.mk (Arena.mk 0 4096 0 8) (fun _ => (7 : ℕ))) 4 1 (by decide)⟩

/-- C10: for a zero-sized element type, `len` divides by zero and panics
(`none`), and consequently `get`, `get_mut`, `as_slice`, `is_empty` and
both indexing operators all panic as well. -/
theorem c10_zero_sized_elements_panic {τ : Type} (v : ArenaVec τ) (idx : ℕ) :
    v.len 0 = none ∧ v.get 0 idx = none ∧ v.get_mut 0 idx = none ∧
    v.as_slice 0 = none ∧ v.is_empty 0 = none ∧
    v.index 0 idx = none ∧ v.index_mut 0 idx = none :=
  ⟨rfl, rfl, rfl, rfl, rfl, rfl, rfl⟩

theorem clear_base {τ : Type} (v : ArenaVec τ) :
    (v.clear).arena.base_addr = v.arena.base_addr := rfl

theorem clear_bump {τ : Type} (v : ArenaVec τ) :
    (v.clear).arena.bump_addr = v.arena.base_addr := rfl

-- Page-protection tracking (for C9): the same arena, refined with the
-- commit state of every byte, so that the stores the source performs can
-- be checked against the protections instead of being assumed to succeed.

/-- `vm_commit`: the bytes of `[lo, hi)` become committed. -/
def commitRange (f : ℕ → Bool) (lo hi : ℕ) : ℕ → Bool :=
  fun p => if lo ≤ p ∧ p < hi then true else f p

/-- `vm_uncommit`: the bytes of `[lo, hi)` become `PROT_NONE` again. -/
def uncommitRange (f : ℕ → Bool) (lo hi : ℕ) : ℕ → Bool :=
  fun p => if lo ≤ p ∧ p < hi then false else f p

/-- An arena together with the page-protection state of its reservation:
`committedB p = true` exactly when the byte at address `p` has been
committed by `vm_commit` and not decommitted since.  The `arena` fields
evolve exactly as in `Arena` (lemmas `ArenaVM.alloc_region_refines` and
`ArenaVM.free_all_refines`). -/
structure ArenaVM where
  arena : Arena
  committedB : ℕ → Bool

/-- `Arena::new` with protection tracked: the `PROT_NONE` reservation
starts with no byte committed. -/
def ArenaVM.new (base pageSize addr_space_size : ℕ) : ArenaVM :=
  { arena := Arena.new base pageSize addr_space_size
    committedB := fun _ => false }

/-- `Arena::alloc_region` with protection tracked: when the commit branch
runs, `vm_commit` makes the delta from the old `uncommitted_addr` up to
`ceil_align(next_bump_addr, granularity)` accessible. -/
def ArenaVM.alloc_region (pageSize : ℕ) (s : ArenaVM) (size align : ℕ) :
    ArenaVM × ℕ :=
  let r := s.arena.alloc_region pageSize size align
  let next_bump_addr := ceil_align s.arena.bump_addr align + size
  let committedB :=
    if s.arena.uncommitted_addr ≤ next_bump_addr then
      commitRange s.committedB s.arena.uncommitted_addr
        (ceil_align next_bump_addr (alloc_granularity pageSize))
    else s.committedB
  ({ arena := r.1, committedB := committedB }, r.2)

/-- `Arena::free_all` with protection tracked: `vm_uncommit` revokes
access to the `free_all_uncommit_size` bytes from `base_addr`. -/
def ArenaVM.free_all (pageSize : ℕ) (s : ArenaVM) : ArenaVM :=
  { arena := s.arena.free_all
    committedB := uncommitRange s.committedB s.arena.base_addr
      (s.arena.base_addr + s.arena.free_all_uncommit_size pageSize) }

/-- `n` consecutive one-element allocations (the `alloc_region` calls made
by `n` `ArenaVec::add`s of a type with this size and alignment; the values
written do not affect the protection state). -/
def ArenaVM.iterAlloc (pageSize size align : ℕ) (s : ArenaVM) : ℕ → ArenaVM
  | 0 => s
  | n + 1 =>
    ArenaVM.iterAlloc pageSize size align (s.alloc_region pageSize size align).1 n

/-- The store `ptr.write` performed by `Arena::alloc` right after
`alloc_region` succeeds exactly when every byte of `[addr, addr + size)`
is committed; touching a byte that is still `PROT_NONE` faults the
process instead of storing. -/
def writeOk (committedB : ℕ → Bool) (addr size : ℕ) : Prop :=
  ∀ i < size, committedB (addr + i) = true

theorem ArenaVM.alloc_region_refines (pageSize : ℕ) (s : ArenaVM) (size align : ℕ) :
    (s.alloc_region pageSize size align).1.arena =
      (s.arena.alloc_region pageSize size align).1 ∧
    (s.alloc_region pageSize size align).2 =
      (s.arena.alloc_region pageSize size align).2 :=
  ⟨rfl, rfl⟩

theorem ArenaVM.free_all_refines (pageSize : ℕ) (s : ArenaVM) :
    (s.free_all pageSize).arena = s.arena.free_all := rfl

theorem ArenaVM.alloc_region_committedB_of_lt (pageSize : ℕ) (s : ArenaVM)
    (size align : ℕ)
    (h : ceil_align s.arena.bump_addr align + size < s.arena.uncommitted_addr) :
    (s.alloc_region pageSize size align).1.committedB = s.committedB := by
  simp only [ArenaVM.alloc_region]
  rw [if_neg (by omega)]

theorem ArenaVM.free_all_committedB (pageSize : ℕ) (s : ArenaVM) :
    (s.free_all pageSize).committedB =
      uncommitRange s.committedB s.arena.base_addr
        (s.arena.base_addr + s.arena.free_all_uncommit_size pageSize) := rfl

/-- As long as every allocation stays strictly below the committed
boundary, repeated one-element allocations leave `base_addr`,
`uncommitted_addr` and the protection state unchanged and advance the
bump pointer by `n * size` (the commit branch never runs). -/
theorem iterAlloc_no_commit (pageSize size align : ℕ) (hd : align ∣ size) :
    ∀ (n : ℕ) (s : ArenaVM),
      align ∣ s.arena.bump_addr →
      s.arena.bump_addr + n * size < s.arena.uncommitted_addr →
      (s.iterAlloc pageSize size align n).arena.base_addr = s.arena.base_addr ∧
      (s.iterAlloc pageSize size align n).arena.uncommitted_addr =
        s.arena.uncommitted_addr ∧
      (s.iterAlloc pageSize size align n).arena.bump_addr =
        s.arena.bump_addr + n * size ∧
      (s.iterAlloc pageSize size align n).committedB = s.committedB := by
  intro n
  induction n with
  | zero =>
    intro s h1 h2
    refine ⟨rfl, rfl, ?_, rfl⟩
    show s.arena.bump_addr = s.arena.bump_addr + 0 * size
    omega
  | succ n ih =>
    intro s h1 h2
    have hmul : (n + 1) * size = n * size + size := by ring
    have hkey : ceil_align s.arena.bump_addr align = s.arena.bump_addr :=
      ceil_align_eq_self _ _ (Nat.mod_eq_zero_of_dvd h1)
    have hnc : ¬(s.arena.uncommitted_addr ≤
        ceil_align s.arena.bump_addr align + size) := by
      rw [hkey]
      omega
    have hstep_arena : ((s.alloc_region pageSize size align).1).arena =
        { s.arena with bump_addr := s.arena.bump_addr + size } := by
      show (s.arena.alloc_region pageSize size align).1 = _
      simp only [Arena.alloc_region]
      rw [if_neg hnc, hkey]
    have hstep_mem : ((s.alloc_region pageSize size align).1).committedB =
        s.committedB := by
      simp only [ArenaVM.alloc_region]
      rw [if_neg hnc]
    have hdvd2 : align ∣ ((s.alloc_region pageSize size align).1).arena.bump_addr := by
      rw [hstep_arena]
      exact dvd_add h1 hd
    have hlt2 : ((s.alloc_region pageSize size align).1).arena.bump_addr + n * size <
        ((s.alloc_region pageSize size align).1).arena.uncommitted_addr := by
      rw [hstep_arena]
      show s.arena.bump_addr + size + n * size < s.arena.uncommitted_addr
      omega
    obtain ⟨ih1, ih2, ih3, ih4⟩ := ih ((s.alloc_region pageSize size align).1) hdvd2 hlt2
    have hiter : s.iterAlloc pageSize size align (n + 1) =
        ((s.alloc_region pageSize size align).1).iterAlloc pageSize size align n := rfl
    refine ⟨?_, ?_, ?_, ?_⟩
    · rw [hiter, ih1, hstep_arena]
    · rw [hiter, ih2, hstep_arena]
    · rw [hiter, ih3, hstep_arena]
      show s.arena.bump_addr + size + n * size = s.arena.bump_addr + (n + 1) * size
      omega
    · rw [hiter, ih4, hstep_mem]

theorem ArenaVM.iterAlloc_succ (pageSize size align : ℕ) (s : ArenaVM) (n : ℕ) :
    s.iterAlloc pageSize size align (n + 1) =
      ((s.alloc_region pageSize size align).1).iterAlloc pageSize size align n := rfl

theorem ArenaVM.alloc_region_addr (pageSize : ℕ) (s : ArenaVM) (size align : ℕ) :
    (s.alloc_region pageSize size align).2 = ceil_align s.arena.bump_addr align := rfl

theorem ArenaVM.free_all_bump (pageSize : ℕ) (s : ArenaVM) :
    (s.free_all pageSize).arena.bump_addr = s.arena.base_addr := rfl

theorem ArenaVM.free_all_uncommitted (pageSize : ℕ) (s : ArenaVM) :
    (s.free_all pageSize).arena.uncommitted_addr = s.arena.uncommitted_addr := rfl

/-- C9 (code bug): in the scenario of the claim (4-byte elements over a
1 MiB arena at base 0; 1000 appends; `clear`; append again), the 1000
appends advance the bump pointer to 4000 with every written byte
committed, and the first append after the clear is handed the original
base address again — but its `ptr.write` lands on a byte `free_all` just
set `PROT_NONE` and that `alloc_region` does not recommit, because the
commit condition compares against the stale `uncommitted_addr = 65536`
that `free_all` never rewound (the C2 defect).  The process therefore
faults on the store, before any post-clear `length()` of 5 or element at
base could be observed. -/
theorem c9_post_clear_append_faults :
    ((ArenaVM.new 0 4096 MIB).iterAlloc 4096 4 4 1000).arena.bump_addr = 4000 ∧
    writeOk ((ArenaVM.new 0 4096 MIB).iterAlloc 4096 4 4 1000).committedB 0 4000 ∧
    (((ArenaVM.new 0 4096 MIB).iterAlloc 4096 4 4 1000).free_all 4096).arena.bump_addr = 0 ∧
    (((ArenaVM.new 0 4096 MIB).iterAlloc 4096 4 4 1000).free_all
        4096).arena.uncommitted_addr = 65536 ∧
    ((((ArenaVM.new 0 4096 MIB).iterAlloc 4096 4 4 1000).free_all 4096).alloc_region
        4096 4 4).2 = 0 ∧
    ((ArenaVM.new 0 4096 MIB).alloc_region 4096 4 4).2 = 0 ∧
    ((((ArenaVM.new 0 4096 MIB).iterAlloc 4096 4 4 1000).free_all 4096).alloc_region
        4096 4 4).1.committedB 0 = false ∧
    ¬writeOk ((((ArenaVM.new 0 4096 MIB).iterAlloc 4096 4 4 1000).free_all
        4096).alloc_region 4096 4 4).1.committedB 0 4 := by
  have hunfold : (ArenaVM.new 0 4096 MIB).iterAlloc 4096 4 4 1000 =
      (((ArenaVM.new 0 4096 MIB).alloc_region 4096 4 4).1).iterAlloc 4096 4 4 999 := by
    rw [show (1000 : ℕ) = 999 + 1 from rfl, ArenaVM.iterAlloc_succ]
  have hA1 : (((ArenaVM.new 0 4096 MIB).alloc_region 4096 4 4).1).arena.bump_addr = 4 := by
    decide
  have hA2 : (((ArenaVM.new 0 4096 MIB).alloc_region 4096 4 4).1).arena.uncommitted_addr =
      65536 := by decide
  have hA0 : (((ArenaVM.new 0 4096 MIB).alloc_region 4096 4 4).1).arena.base_addr = 0 := by
    decide
  have hAc : (((ArenaVM.new 0 4096 MIB).alloc_region 4096 4 4).1).committedB =
      commitRange (fun _ => false) 0 65536 := rfl
  obtain ⟨hBbase, hBunc, hBbump, hBmem⟩ :=
    iterAlloc_no_commit 4096 4 4 (dvd_refl 4) 999
      (((ArenaVM.new 0 4096 MIB).alloc_region 4096 4 4).1)
      (by rw [hA1]) (by rw [hA1, hA2]; norm_num)
  have hBb : ((ArenaVM.new 0 4096 MIB).iterAlloc 4096 4 4 1000).arena.bump_addr = 4000 := by
    rw [hunfold, hBbump, hA1]
  have hCb : (((ArenaVM.new 0 4096 MIB).iterAlloc 4096 4 4 1000).free_all
      4096).arena.bump_addr = 0 := by
    rw [ArenaVM.free_all_bump, hunfold, hBbase, hA0]
  have hCu : (((ArenaVM.new 0 4096 MIB).iterAlloc 4096 4 4 1000).free_all
      4096).arena.uncommitted_addr = 65536 := by
    rw [ArenaVM.free_all_uncommitted, hunfold, hBunc, hA2]
  have hCmem : (((ArenaVM.new 0 4096 MIB).iterAlloc 4096 4 4 1000).free_all
      4096).committedB =
      uncommitRange (commitRange (fun _ => false) 0 65536) 0 65536 := by
    rw [ArenaVM.free_all_committedB, hunfold, hBmem, hAc, hBbase, hA0]
    simp only [Arena.free_all_uncommit_size]
    rw [hBbump, hA1, hBbase, hA0]
    norm_num [ceil_align, alloc_granularity, PAGES_PER_COMMIT]
  have hpostmem : ((((ArenaVM.new 0 4096 MIB).iterAlloc 4096 4 4 1000).free_all
      4096).alloc_region 4096 4 4).1.committedB =
      (((ArenaVM.new 0 4096 MIB).iterAlloc 4096 4 4 1000).free_all 4096).committedB := by
    apply ArenaVM.alloc_region_committedB_of_lt
    rw [hCb, hCu]
    decide
  have hC0 : ((((ArenaVM.new 0 4096 MIB).iterAlloc 4096 4 4 1000).free_all
      4096).alloc_region 4096 4 4).1.committedB 0 = false := by
    rw [hpostmem, hCmem]
    decide
  refine ⟨hBb, ?_, hCb, hCu, ?_, by decide, hC0, ?_⟩
  · rw [hunfold, hBmem, hAc]
    intro i hi
    simp only [commitRange]
    rw [if_pos ⟨by omega, by omega⟩]
  · rw [ArenaVM.alloc_region_addr, hCb]
    decide
  · intro h
    have h0 := h 0 (by norm_num)
    rw [show (0 : ℕ) + 0 = 0 from rfl, hC0] at h0
    exact Bool.false_ne_true h0
